import Mathlib

/-!
Verification development for the `versed` repository
(`src/versed/vector_store.py`, `src/versed/gdrive_file_handler.py`).

The Python source is shallowly embedded: stateful methods of `VectorStore`
become explicit state-passing functions over `StoreState`; the Milvus engine
is modelled as the catalog it exposes (a list of collection names paired with
the schema each collection was created with); the JSON ledger file is the
`persisted` component of the state.  Methods whose Python body is `pass`
(they fall off the end and return `None`) are embedded as functions returning
`Option.none` and leaving the state untouched, exactly as the source does.
-/

set_option autoImplicit false

namespace Versed

/-! ### Schema model (vector_store.py, lines 30-33)

`pymilvus` data types that occur in (or are relevant to) this code base.
`varchar` is Milvus's bounded-length text type; it is included so that its
absence from the source's schema is expressible. -/

inductive DType where
  | int64
  | floatVector
  | varchar
  deriving DecidableEq, Repr

/-- A `pymilvus.FieldSchema` as used by this code base: a name, a data type,
the `is_primary` flag and, for vector fields, the dimension. -/
structure Field where
  name : String
  dtype : DType
  isPrimary : Bool
  dim : Option Nat
  deriving DecidableEq, Repr

/-- `VectorStore.__init__` (lines 30-33): `self.fields` is the fixed schema
given to every `create_collection` call — an INT64 primary `id` field and a
FLOAT_VECTOR `vector` field of dimension 128.  No VARCHAR text field, and no
index specification, appears anywhere in the source. -/
def versedFields : List Field :=
  [ ⟨"id", DType.int64, true, none⟩,
    ⟨"vector", DType.floatVector, false, some 128⟩ ]

/-! ### Ledger and store state -/

/-- One entry of `self.metadata["collections"]`: a collection name and its
file list (the source appends entries with an empty `"files"` list). -/
structure CollEntry where
  collectionName : String
  files : List String
  deriving DecidableEq, Repr

/-- The mutable state of a `VectorStore`:
* `engine`   — the Milvus catalog: each collection's name with the schema it
  was created with;
* `metadata` — the in-memory ledger `self.metadata["collections"]`;
* `persisted` — the contents of the `metadata.json` file (what
  `update_metadata` last wrote). -/
structure StoreState where
  engine : List (String × List Field)
  metadata : List CollEntry
  persisted : List CollEntry
  deriving DecidableEq, Repr

def engineNames (st : StoreState) : List String :=
  st.engine.map Prod.fst

/-- `VectorStore.get_collection_names` (lines 81-82). -/
def get_collection_names (st : StoreState) : List String :=
  st.metadata.map CollEntry.collectionName

/-- Observable side effects of a registry call, in the order the source
performs them. -/
inductive Event where
  | engineCreate (name : String)
  | engineDrop (name : String)
  | ledgerAppend (name : String)
  | ledgerRemove (name : String)
  | persist
  deriving DecidableEq, Repr

/-- `VectorStore.add_collection` (lines 90-113).  If the engine does not have
the collection it (1) creates the engine collection with schema
`versedFields`, (2) appends the ledger entry, (3) persists the ledger via
`update_metadata`, and returns `True`; otherwise it returns `False` and
touches nothing.  The `callback`, invoked after persisting, carries no state
and is omitted.  The event trace records the order of the side effects. -/
def add_collection (collection_name description : String) (st : StoreState) :
    Bool × StoreState × List Event :=
  if collection_name ∈ engineNames st then
    (false, st, [])
  else
    let st1 : StoreState := { st with engine := st.engine ++ [(collection_name, versedFields)] }
    let st2 : StoreState := { st1 with metadata := st1.metadata ++ [⟨collection_name, []⟩] }
    let st3 : StoreState := { st2 with persisted := st2.metadata }
    (true, st3,
      [Event.engineCreate collection_name, Event.ledgerAppend collection_name, Event.persist])

/-- `VectorStore.remove_collection` (lines 115-122).  The docstring promises
to remove the collection and its metadata, but the body is `pass`: the call
returns `None` and performs no side effect at all. -/
def remove_collection (collection : String) (st : StoreState) :
    Option Bool × StoreState × List Event :=
  (none, st, [])

/-- `VectorStore.get_collection_stats` (lines 84-88): engine stats only for
ledger-known names; unknown names yield an empty dict without an engine
call.  Stats themselves are engine-side, so the model records whether the
engine was consulted. -/
def get_collection_stats (collection_name : String) (st : StoreState) : Bool :=
  collection_name ∈ get_collection_names st

/-! ### Constructor: ledger loading (vector_store.py, lines 37-59) -/

/-- Python exceptions that can escape `VectorStore.__init__`'s ledger
loading. -/
inductive PyError where
  | fileNotFound
  deriving DecidableEq, Repr

/-- Result of the constructor's metadata-loading phase. -/
inductive InitResult where
  | ok (metadata : List CollEntry)
  | raised (e : PyError)
  deriving DecidableEq, Repr

/-- `VectorStore.__init__` (lines 37-59), metadata-loading phase.
If the engine catalog is empty, the default collection is created and the
metadata is initialised to a single entry for it (lines 37-50).  Otherwise
the `metadata.json` file is opened — a missing file raises
`FileNotFoundError`, which nothing catches — and its contents parsed with
`json.loads`; only a `JSONDecodeError` is caught, yielding the empty ledger
(lines 52-59).  `parse` abstracts `json.loads` followed by field access:
`none` models a decode failure. -/
def initMetadata (defaultCollectionName : String) (engineCols : List String)
    (ledgerFile : Option String) (parse : String → Option (List CollEntry)) :
    InitResult :=
  if engineCols = [] then
    InitResult.ok [⟨defaultCollectionName, []⟩]
  else
    match ledgerFile with
    | none => InitResult.raised PyError.fileNotFound
    | some contents =>
      match parse contents with
      | some entries => InitResult.ok entries
      | none => InitResult.ok []

/-! ### Text chunker (vector_store.py, lines 183-204)

`VectorStore.split_text` delegates to an external recursive character
splitter, configured with the source's fixed separator list, `chunk_size`,
`overlap` and plain (non-regex) separators.  The splitter itself is not part
of this repository, so its algorithm is modelled from the spec (spec 4.3):
recursive separator-cascade splitting over the source's separator list, with
a character-level fallback, chunks tracking the separator consumed after
them so that reconstruction is expressible. -/

/-- Modelled from the spec: one pass of splitting `text` on the separator
`sep`, returning each piece paired with the separator occurrence consumed
after it (the last piece is paired with `[]`).  `fuel` bounds the recursion;
callers supply `text.length`, which suffices because every step consumes at
least one character.  An empty separator splits nothing (the empty-string
candidate is the character-level fallback, handled in `rsplit`). -/
def splitOnGo (sep : List Char) : Nat → List Char → List Char → List (List Char × List Char)
  | 0, acc, text => [(acc.reverse ++ text, [])]
  | _ + 1, acc, [] => [(acc.reverse, [])]
  | fuel + 1, acc, c :: rest =>
    if sep.isPrefixOf (c :: rest) ∧ sep ≠ [] then
      (acc.reverse, sep) :: splitOnGo sep fuel [] (List.drop sep.length (c :: rest))
    else
      splitOnGo sep fuel (c :: acc) rest

def splitOn (sep text : List Char) : List (List Char × List Char) :=
  splitOnGo sep text.length [] text

/-- Modelled from the spec: character-level fallback — cut `text` into
consecutive pieces of `n` characters.  `fuel` bounds the recursion;
`text.length` suffices whenever `0 < n`. -/
def chunksOfGo (n : Nat) : Nat → List Char → List (List Char)
  | _, [] => []
  | 0, c :: rest => [c :: rest]
  | fuel + 1, c :: rest => List.take n (c :: rest) :: chunksOfGo n fuel (List.drop n (c :: rest))

def chunksOf (n : Nat) (text : List Char) : List (List Char) :=
  chunksOfGo n text.length text

/-- Append a pending separator to the separator slot of the last chunk of a
chunk list (used when a piece produced by an outer separator is split
further by inner separators). -/
def attachSep (s : List Char) : List (List Char × List Char) → List (List Char × List Char)
  | [] => [([], s)]
  | [p] => [(p.1, p.2 ++ s)]
  | p :: q :: rest => p :: attachSep s (q :: rest)

/-- Modelled from the spec (spec 4.3): recursive separator-cascade split.
A piece no larger than `n` is a chunk; an oversized piece is split on the
first separator of the cascade and its fragments are split further with the
remaining separators; when the cascade is exhausted the character-level
fallback applies.  Each chunk carries the separator consumed after it. -/
def rsplit (n : Nat) : List (List Char) → List Char → List (List Char × List Char)
  | seps, text =>
    if text.length ≤ n then
      [(text, [])]
    else
      match seps with
      | [] => (chunksOf n text).map (fun c => (c, []))
      | sep :: rest =>
        ((splitOn sep text).map (fun p => attachSep p.2 (rsplit n rest p.1))).flatten

/-- Modelled from the spec: `overlap` repeats the trailing `o` characters of
each chunk as the leading characters of the next. -/
def applyOverlapGo (o : Nat) : List Char → List (List Char) → List (List Char)
  | _, [] => []
  | prev, x :: xs => (List.drop (prev.length - o) prev ++ x) :: applyOverlapGo o x xs

def applyOverlap (o : Nat) : List (List Char) → List (List Char)
  | [] => []
  | c :: rest => c :: applyOverlapGo o c rest

/-- `VectorStore.split_text` (lines 183-204): the exact separator list the
source passes to the splitter, in order — sentence stop plus double
newline, double newline, sentence stop plus newline, newline, sentence
stop, zero-width space, fullwidth comma, ideographic comma, fullwidth full
stop, ideographic full stop, and the empty-string fallback. -/
def versedSeparators : List String :=
  [ ".\n\n",
    "\n\n",
    ".\n",
    "\n",
    ".",
    "\u200B",
    "\uFF0C",
    "\u3001",
    "\uFF0E",
    "\u3002",
    "" ]

/-- The chunk/separator decomposition `split_text` is built from:
`rsplit` over the source's separator list. -/
def splitChunksWithSeps (chunk_size : Nat) (text : String) : List (List Char × List Char) :=
  rsplit chunk_size (versedSeparators.map String.toList) text.toList

/-- `VectorStore.split_text` (lines 183-204), with the splitter modelled
from the spec: chunk texts of the cascade decomposition, with `overlap`
trailing characters of each chunk repeated at the head of the next. -/
def split_text (text : String) (chunk_size overlap : Nat) : List String :=
  (applyOverlap overlap ((splitChunksWithSeps chunk_size text).map Prod.fst)).map
    (fun l => String.mk l)

/-! ### Chunker lemmas -/

theorem splitOnGo_flatten (sep : List Char) (fuel : Nat) :
    ∀ (acc text : List Char),
      ((splitOnGo sep fuel acc text).map (fun p => p.1 ++ p.2)).flatten =
        acc.reverse ++ text := by
  induction fuel with
  | zero => intro acc text; simp [splitOnGo]
  | succ fuel ih =>
    intro acc text
    cases text with
    | nil => simp [splitOnGo]
    | cons c rest =>
      rw [splitOnGo]
      by_cases h : sep.isPrefixOf (c :: rest) ∧ sep ≠ []
      · rw [if_pos h]
        have hpre : sep ++ List.drop sep.length (c :: rest) = c :: rest := by
          have h1 : sep <+: (c :: rest) := List.isPrefixOf_iff_prefix.mp h.1
          obtain ⟨t, ht⟩ := h1
          rw [← ht, List.drop_left]
        simp only [List.map_cons, List.flatten_cons, ih]
        simp [List.append_assoc, hpre]
      · rw [if_neg h, ih]
        simp

theorem splitOn_flatten (sep text : List Char) :
    ((splitOn sep text).map (fun p => p.1 ++ p.2)).flatten = text := by
  simpa using splitOnGo_flatten sep text.length [] text

theorem chunksOfGo_flatten (n : Nat) (fuel : Nat) :
    ∀ text : List Char, (chunksOfGo n fuel text).flatten = text := by
  induction fuel with
  | zero =>
    intro text
    cases text with
    | nil => simp [chunksOfGo]
    | cons c rest => simp [chunksOfGo]
  | succ fuel ih =>
    intro text
    cases text with
    | nil => simp [chunksOfGo]
    | cons c rest =>
      rw [chunksOfGo]
      simp [ih, List.take_append_drop]

theorem chunksOf_flatten (n : Nat) (text : List Char) :
    (chunksOf n text).flatten = text :=
  chunksOfGo_flatten n text.length text

theorem chunksOfGo_le (n : Nat) (hn : 0 < n) (fuel : Nat) :
    ∀ text : List Char, text.length ≤ fuel →
      ∀ c ∈ chunksOfGo n fuel text, c.length ≤ n := by
  induction fuel with
  | zero =>
    intro text hlen c hc
    cases text with
    | nil => simp [chunksOfGo] at hc
    | cons x rest => simp at hlen
  | succ fuel ih =>
    intro text hlen c hc
    cases text with
    | nil => simp [chunksOfGo] at hc
    | cons x rest =>
      rw [chunksOfGo] at hc
      rcases List.mem_cons.mp hc with h | h
      · subst h
        simp [Nat.min_le_left]
      · refine ih (List.drop n (x :: rest)) ?_ c h
        simp only [List.length_drop, List.length_cons] at *
        omega

theorem chunksOf_le (n : Nat) (hn : 0 < n) (text : List Char) :
    ∀ c ∈ chunksOf n text, c.length ≤ n :=
  chunksOfGo_le n hn text.length text (Nat.le_refl _)

theorem attachSep_flatten (s : List Char) :
    ∀ l : List (List Char × List Char),
      ((attachSep s l).map (fun p => p.1 ++ p.2)).flatten =
        (l.map (fun p => p.1 ++ p.2)).flatten ++ s
  | [] => by simp [attachSep]
  | [p] => by simp [attachSep]
  | p :: q :: rest => by
    rw [attachSep]
    simp only [List.map_cons, List.flatten_cons, attachSep_flatten s (q :: rest)]
    simp [List.append_assoc]

theorem attachSep_mem (s : List Char) :
    ∀ l : List (List Char × List Char), ∀ q ∈ attachSep s l,
      q.1 = [] ∨ ∃ p ∈ l, q.1 = p.1
  | [], q, hq => by
    simp [attachSep] at hq
    simp [hq]
  | [p], q, hq => by
    simp [attachSep] at hq
    exact Or.inr ⟨p, by simp, by simp [hq]⟩
  | p :: p' :: rest, q, hq => by
    rw [attachSep] at hq
    rcases List.mem_cons.mp hq with h | h
    · exact Or.inr ⟨p, by simp, by simp [h]⟩
    · rcases attachSep_mem s (p' :: rest) q h with h' | ⟨r, hr, hr'⟩
      · exact Or.inl h'
      · exact Or.inr ⟨r, List.mem_cons_of_mem _ hr, hr'⟩

theorem rsplit_flatten (n : Nat) :
    ∀ (seps : List (List Char)) (text : List Char),
      ((rsplit n seps text).map (fun p => p.1 ++ p.2)).flatten = text := by
  intro seps
  induction seps with
  | nil =>
    intro text
    rw [rsplit]
    by_cases h : text.length ≤ n
    · simp [h]
    · rw [if_neg h]
      simp only [List.map_map]
      have : ((fun p : List Char × List Char => p.1 ++ p.2) ∘ fun c => (c, ([] : List Char)))
          = id := by
        funext c; simp
      rw [this, List.map_id, chunksOf_flatten]
  | cons sep rest ih =>
    intro text
    rw [rsplit]
    by_cases h : text.length ≤ n
    · simp [h]
    · rw [if_neg h]
      have aux : ∀ l : List (List Char × List Char),
          (((l.map (fun p => attachSep p.2 (rsplit n rest p.1))).flatten).map
              (fun p => p.1 ++ p.2)).flatten =
            (l.map (fun p => p.1 ++ p.2)).flatten := by
        intro l
        induction l with
        | nil => simp
        | cons p l ihl =>
          simp only [List.map_cons, List.flatten_cons, List.map_append,
            List.flatten_append, ihl, attachSep_flatten, ih]
      rw [aux, splitOn_flatten]

theorem rsplit_le (n : Nat) (hn : 0 < n) :
    ∀ (seps : List (List Char)) (text : List Char),
      ∀ p ∈ rsplit n seps text, p.1.length ≤ n := by
  intro seps
  induction seps with
  | nil =>
    intro text p hp
    rw [rsplit] at hp
    by_cases h : text.length ≤ n
    · rw [if_pos h] at hp
      simp at hp
      simp [hp, h]
    · rw [if_neg h] at hp
      rcases List.mem_map.mp hp with ⟨c, hc, hcp⟩
      rw [← hcp]
      exact chunksOf_le n hn text c hc
  | cons sep rest ih =>
    intro text p hp
    rw [rsplit] at hp
    by_cases h : text.length ≤ n
    · rw [if_pos h] at hp
      simp at hp
      simp [hp, h]
    · rw [if_neg h] at hp
      rcases List.mem_flatten.mp hp with ⟨l, hl, hpl⟩
      rcases List.mem_map.mp hl with ⟨piece, hpiece, hFl⟩
      rw [← hFl] at hpl
      rcases attachSep_mem piece.2 (rsplit n rest piece.1) p hpl with h' | ⟨q, hq, hq'⟩
      · simp [h']
      · rw [hq']
        exact ih piece.1 q hq

theorem applyOverlapGo_zero (prev : List Char) :
    ∀ l : List (List Char), applyOverlapGo 0 prev l = l := by
  intro l
  induction l generalizing prev with
  | nil => simp [applyOverlapGo]
  | cons x xs ih => simp [applyOverlapGo, List.drop_length, ih]

theorem applyOverlap_zero (l : List (List Char)) : applyOverlap 0 l = l := by
  cases l with
  | nil => rfl
  | cons c rest => simp [applyOverlap, applyOverlapGo_zero]

/-! ### Embedding and insertion (vector_store.py, lines 124-137, 206-215) -/

/-- An embedding vector, abstracted over the numeric carrier. -/
abbrev Embedding := List Int

/-- `VectorStore.embed_chunk` (lines 206-212): the string the method passes
as `input` to the embedding request.  It is the hard-coded placeholder, not
the `chunk` argument. -/
def embed_chunk_request_input (chunk : String) : String :=
  "Your text string goes here"

/-- `VectorStore.embed_chunk` (lines 206-212): the method stores the
response in a local variable and falls off the end, returning `None` —
no vector is ever returned for any chunk. -/
def embed_chunk (chunk : String) : Option Embedding :=
  none

/-- The per-chunk embedding loop of `VectorStore.add_files_to_collection`
(lines 131-137): each chunk is passed to `embed_chunk` in order. -/
def embedChunks (chunks : List String) : List (Option Embedding) :=
  chunks.map embed_chunk

/-- `VectorStore.add_chunk_to_collection` (lines 214-215): the body is
`pass` — no insert is performed, no engine-reported row count is read or
compared, and `None` is returned. -/
def add_chunk_to_collection (collection : String) (chunk : Option Embedding) :
    Option Bool :=
  none

/-! ### Google Drive dispatch (gdrive_file_handler.py, lines 12-60)

`GoogleDriveHandler._get_google_drive_file_stream` dispatches on
`Path(file["name"]).suffix`.  Only five of the ten match arms call a method
that is actually defined on the class (`_get_txt_file_stream`,
`_get_google_doc_file_stream`, `_get_docx_file_stream`,
`_get_pdf_file_stream`, `_get_google_sheet_file_stream`); the arms for
`.gslides`, `.ipynb`, `.xlsx`, `.pptx` and `.csv` reference attributes that
exist nowhere in the file, so those calls raise `AttributeError` before any
network request is issued. -/

/-- How a defined handler method obtains its byte stream: a segmented
direct download (`files().get_media`) or a server-side export to the given
MIME type (`files().export_media`). -/
inductive Strategy where
  | download
  | exportTo (mimeType : String)
  deriving DecidableEq, Repr

/-- Outcome of the extension dispatch:
* `stream s tag` — a handler method exists and returns a byte stream
  obtained by strategy `s`, with `file["type"]` set to `tag`;
* `unsupported ext` — the `case _` arm raises `ValueError` before any I/O;
* `missingHandler m` — the arm calls `self.m`, a method not defined
  anywhere on `GoogleDriveHandler`, so the call raises `AttributeError`
  and no stream is produced. -/
inductive DispatchResult where
  | stream (s : Strategy) (tag : String)
  | unsupported (ext : String)
  | missingHandler (method : String)
  deriving DecidableEq, Repr

def docxMimeType : String :=
  "application/vnd.openxmlformats-officedocument.wordprocessingml.document"

/-- Index (from the front) of the last `'.'` in a character list. -/
def lastDotPosGo : Nat → Option Nat → List Char → Option Nat
  | _, best, [] => best
  | i, best, c :: rest => lastDotPosGo (i + 1) (if c = '.' then some i else best) rest

/-- `pathlib.PurePath.suffix` for a plain file name (no path separators):
the substring from the last dot on, unless that dot is the first or last
character, in which case the suffix is empty. -/
def suffixOf (name : String) : String :=
  let cs := name.toList
  match lastDotPosGo 0 none cs with
  | none => ""
  | some i => if 0 < i ∧ i + 1 < cs.length then String.mk (cs.drop i) else ""

/-- `GoogleDriveHandler._get_google_drive_file_stream` (lines 12-60):
dispatch on the file-name extension.  The five arms whose handler methods
are defined yield a stream via the source's strategy (direct download for
`.txt`, `.docx`, `.pdf`; export to the docx MIME type for `.gdoc`; export
to `text/csv` for `.gsheet`); the five arms whose handler methods are not
defined on the class fail with `AttributeError` (`missingHandler`); every
other extension hits the `case _` arm, which raises `ValueError`
(`unsupported`) before any network or disk I/O. -/
def getGoogleDriveFileStream (name : String) : DispatchResult :=
  match suffixOf name with
  | ".txt" => DispatchResult.stream Strategy.download ".txt"
  | ".gdoc" => DispatchResult.stream (Strategy.exportTo docxMimeType) ".docx"
  | ".docx" => DispatchResult.stream Strategy.download ".docx"
  | ".pdf" => DispatchResult.stream Strategy.download ".pdf"
  | ".gsheet" => DispatchResult.stream (Strategy.exportTo "text/csv") ".gsheet"
  | ".gslides" => DispatchResult.missingHandler "_get_google_slide_file_stream"
  | ".ipynb" => DispatchResult.missingHandler "_get_notebook_file_stream"
  | ".xlsx" => DispatchResult.missingHandler "_get_excel_file_stream"
  | ".pptx" => DispatchResult.missingHandler "_get_pptx_file_stream"
  | ".csv" => DispatchResult.missingHandler "_get_csv_file_stream"
  | ext => DispatchResult.unsupported ext

/-! ### Claims -/

/-- C1: the claim says `remove_collection(n)` drops the engine collection,
removes the ledger entry, persists, and reports Removed, leaving `n` absent
from both stores.  The source's `remove_collection` body is `pass`: it
returns `None`, performs no side effect, and a collection present in both
the engine catalog and the ledger is still present in both afterwards. -/
theorem C1_remove_collection_noop :
    (∀ (name : String) (st : StoreState), remove_collection name st = (none, st, [])) ∧
    "docs" ∈ engineNames (remove_collection "docs"
      ⟨[("docs", versedFields)], [⟨"docs", []⟩], [⟨"docs", []⟩]⟩).2.1 ∧
    "docs" ∈ get_collection_names (remove_collection "docs"
      ⟨[("docs", versedFields)], [⟨"docs", []⟩], [⟨"docs", []⟩]⟩).2.1 :=
  ⟨fun _ _ => rfl, by decide, by decide⟩

/-- C2: the claim says the embedding operation returns exactly one vector
per input text, positionally.  The source's `embed_chunk` sends the
hard-coded placeholder string to the service regardless of its argument and
falls off the end, returning `None`: no chunk ever receives a vector, so
the per-chunk loop of `add_files_to_collection` produces no vectors at
all. -/
theorem C2_embed_chunk_stub :
    embedChunks ["x", "y", "z"] = [none, none, none] ∧
    (∀ chunk : String, embed_chunk chunk = none) ∧
    (∀ chunk : String, embed_chunk_request_input chunk = "Your text string goes here") :=
  ⟨rfl, fun _ => rfl, fun _ => rfl⟩

/-- C3: if the engine already has a collection named `n`, `add_collection`
returns the duplicate result (`False`) and leaves the in-memory ledger, the
persisted ledger and the engine untouched; otherwise it creates the
engine-side collection, then appends the ledger entry, then persists — in
exactly that order — and afterwards `n` is in both stores. -/
theorem C3_add_collection_order (name description : String) (st : StoreState) :
    (name ∈ engineNames st →
      add_collection name description st = (false, st, [])) ∧
    (name ∉ engineNames st →
      (add_collection name description st).2.2 =
        [Event.engineCreate name, Event.ledgerAppend name, Event.persist] ∧
      (add_collection name description st).1 = true ∧
      (add_collection name description st).2.1.engine = st.engine ++ [(name, versedFields)] ∧
      (add_collection name description st).2.1.metadata = st.metadata ++ [⟨name, []⟩] ∧
      (add_collection name description st).2.1.persisted = st.metadata ++ [⟨name, []⟩]) := by
  constructor
  · intro h
    simp [add_collection, h]
  · intro h
    refine ⟨?_, ?_, ?_, ?_, ?_⟩ <;> simp [add_collection, h]

theorem C3_add_collection_order_witness :
    add_collection "docs" "d" ⟨[("docs", versedFields)], [⟨"docs", []⟩], [⟨"docs", []⟩]⟩ =
      (false, ⟨[("docs", versedFields)], [⟨"docs", []⟩], [⟨"docs", []⟩]⟩, []) ∧
    (add_collection "new" "d" ⟨[], [], []⟩).2.2 =
      [Event.engineCreate "new", Event.ledgerAppend "new", Event.persist] :=
  ⟨(C3_add_collection_order "docs" "d" _).1 (by decide),
    ((C3_add_collection_order "new" "d" ⟨[], [], []⟩).2 (by decide)).1⟩

/-- C4 counterexample: the claim says the separator cascade contains a comma
candidate and a space candidate; the list the source passes to the splitter
contains neither. -/
theorem C4_counterexample :
    ¬ ("," ∈ versedSeparators ∧ " " ∈ versedSeparators) := by
  decide

/-- C4 (amended): the separator list `split_text` hands to the splitter for
every input is exactly sentence-stop-plus-double-newline, double newline,
sentence-stop-plus-newline, newline, sentence stop, zero-width space,
fullwidth comma, ideographic comma, fullwidth full stop, ideographic full
stop, and the empty-string fallback — with no Latin comma and no space
candidate. -/
theorem C4_separator_list :
    versedSeparators =
      [".\n\n", "\n\n", ".\n", "\n", ".",
        "\u200B", "\uFF0C", "\u3001", "\uFF0E", "\u3002", ""] ∧
    "," ∉ versedSeparators ∧
    " " ∉ versedSeparators ∧
    ∀ (text : String) (n o : Nat),
      split_text text n o =
        (applyOverlap o ((rsplit n (versedSeparators.map String.toList) text.toList).map
          Prod.fst)).map (fun l => String.mk l) :=
  ⟨rfl, by decide, by decide, fun _ _ _ => rfl⟩

/-- C5: for every text and every positive `maxSize`, the cascade split with
overlap 0 yields chunks of length at most `maxSize` whose in-order
concatenation, each chunk followed by the separator chosen after it,
reconstructs the original text (so the chunks are disjoint, order-preserving
spans of the input); `split_text` returns exactly those chunk texts; and on
`"a.b.c.d"` with `maxSize` 3 the split yields four chunks. -/
theorem C5_split_reconstruction (text : String) (n : Nat) (hn : 0 < n) :
    (∀ p ∈ splitChunksWithSeps n text, p.1.length ≤ n) ∧
    ((splitChunksWithSeps n text).map (fun p => p.1 ++ p.2)).flatten = text.toList ∧
    split_text text n 0 = (splitChunksWithSeps n text).map (fun p => String.mk p.1) ∧
    (splitChunksWithSeps 3 "a.b.c.d").length = 4 := by
  refine ⟨fun p hp => rsplit_le n hn _ _ p hp, rsplit_flatten n _ _, ?_, by decide⟩
  unfold split_text
  rw [applyOverlap_zero, List.map_map]
  rfl

theorem C5_split_reconstruction_witness :
    0 < 3 ∧
    ((∀ p ∈ splitChunksWithSeps 3 "a.b.c.d", p.1.length ≤ 3) ∧
      ((splitChunksWithSeps 3 "a.b.c.d").map (fun p => p.1 ++ p.2)).flatten =
        "a.b.c.d".toList ∧
      split_text "a.b.c.d" 3 0 =
        (splitChunksWithSeps 3 "a.b.c.d").map (fun p => String.mk p.1) ∧
      (splitChunksWithSeps 3 "a.b.c.d").length = 4) :=
  ⟨by decide, C5_split_reconstruction "a.b.c.d" 3 (by decide)⟩

/-- C6: the claim says every extension in the closed enumeration obtains a
byte stream via its matching strategy.  Extensions with a defined handler
do (e.g. `.txt` by direct download); but the `.xlsx` arm (like the
`.gslides`, `.ipynb`, `.pptx` and `.csv` arms) calls a method that is not
defined anywhere on `GoogleDriveHandler`, so it raises `AttributeError`
instead of producing a stream.  Extensions outside the enumeration do fail
before any I/O. -/
theorem C6_dispatch_eval :
    getGoogleDriveFileStream "notes.txt" = DispatchResult.stream Strategy.download ".txt" ∧
    getGoogleDriveFileStream "doc.gdoc" =
      DispatchResult.stream (Strategy.exportTo docxMimeType) ".docx" ∧
    getGoogleDriveFileStream "report.xlsx" =
      DispatchResult.missingHandler "_get_excel_file_stream" ∧
    getGoogleDriveFileStream "deck.gslides" =
      DispatchResult.missingHandler "_get_google_slide_file_stream" ∧
    getGoogleDriveFileStream "photo.jpg" = DispatchResult.unsupported ".jpg" :=
  ⟨by decide, by decide, by decide, by decide, by decide⟩

/-- C7 counterexample: the collection `"c"` created by the registry on an
empty store carries the schema `versedFields`, which contains no VARCHAR
(bounded-length text) field — refuting the claimed fixed schema with a text
field, a cosine index and a creation-time dimensionality check. -/
theorem C7_counterexample :
    (add_collection "c" "d" ⟨[], [], []⟩).2.1.engine = [("c", versedFields)] ∧
    DType.varchar ∉ versedFields.map Field.dtype := by
  decide

/-- C7 (amended): every collection the registry creates is created with the
fixed two-field schema — an INT64 primary `id` field and a 128-dimension
FLOAT_VECTOR `vector` field; the schema contains no bounded-length text
field, and nothing at creation time attaches an index or compares the
vector width with the embedding client's dimensionality. -/
theorem C7_schema (name description : String) (st : StoreState)
    (h : name ∉ engineNames st) :
    (add_collection name description st).2.1.engine = st.engine ++ [(name, versedFields)] ∧
    versedFields =
      [⟨"id", DType.int64, true, none⟩, ⟨"vector", DType.floatVector, false, some 128⟩] ∧
    DType.varchar ∉ versedFields.map Field.dtype := by
  refine ⟨?_, rfl, by decide⟩
  simp [add_collection, h]

theorem C7_schema_witness :
    (add_collection "c" "d" ⟨[], [], []⟩).2.1.engine = [("c", versedFields)] ∧
    versedFields =
      [⟨"id", DType.int64, true, none⟩, ⟨"vector", DType.floatVector, false, some 128⟩] ∧
    DType.varchar ∉ versedFields.map Field.dtype := by
  have h := C7_schema "c" "d" ⟨[], [], []⟩ (by decide)
  simpa using h

/-- C8: the claim says every batch insert compares the engine-reported row
count with the submitted count and surfaces a mismatch.  The source's
`add_chunk_to_collection` body is `pass`: it performs no insert, reads no
reported count, compares nothing, and returns `None` for every input, so a
mismatch can never be surfaced. -/
theorem C8_insert_count_unchecked :
    (∀ (collection : String) (chunk : Option Embedding),
      add_chunk_to_collection collection chunk = none) ∧
    add_chunk_to_collection "docs" (some [1, 2, 3]) = none :=
  ⟨fun _ _ => rfl, rfl⟩

/-- C9: when the engine catalog is non-empty (so the ledger file is read)
and the file's contents fail to decode, the constructor recovers locally:
the metadata becomes the empty ledger and no exception is raised. -/
theorem C9_corrupt_ledger_recovered (defaultName : String) (engineCols : List String)
    (contents : String) (parse : String → Option (List CollEntry))
    (hengine : engineCols ≠ []) (hparse : parse contents = none) :
    initMetadata defaultName engineCols (some contents) parse = InitResult.ok [] := by
  unfold initMetadata
  rw [if_neg hengine]
  simp [hparse]

theorem C9_corrupt_ledger_recovered_witness :
    initMetadata "default" ["docs"] (some "not json") (fun _ => none) = InitResult.ok [] :=
  C9_corrupt_ledger_recovered "default" ["docs"] "not json" (fun _ => none)
    (by decide) rfl

/-- C10: when the engine catalog is non-empty but the ledger file is absent
(or cannot be opened), the constructor raises the file-open error rather
than resetting to an empty ledger: only a decode failure of a readable file
is recovered. -/
theorem C10_missing_ledger_raises (defaultName : String) (engineCols : List String)
    (parse : String → Option (List CollEntry)) (hengine : engineCols ≠ []) :
    initMetadata defaultName engineCols none parse =
      InitResult.raised PyError.fileNotFound := by
  unfold initMetadata
  rw [if_neg hengine]

theorem C10_missing_ledger_raises_witness :
    initMetadata "default" ["docs"] none (fun _ => none) =
      InitResult.raised PyError.fileNotFound :=
  C10_missing_ledger_raises "default" ["docs"] (fun _ => none) (by decide)

end Versed
